import Mathlib

/-!
Shallow embedding of the arena game core (`src/scenes/ArenaScene.ts`,
`src/state/currency.ts`) for verification of the specification's claims.

Modelling conventions:
* JavaScript numbers that only ever hold integers (scores, health, currency,
  hook charges, timestamps, pixel coordinates) are modelled as `Int`.
* Fractional multipliers (speed multipliers, alpha values) are modelled as `Rat`
  with the exact decimal values from the source (e.g. `0.05 = 1/20`).
* `Math.round` is applied in the source only to non-negative multiples of `0.5`
  (`Math.max(score, 0) * 0.5`); on such inputs JS rounds halves up, which equals
  `(m + 1) / 2` in integer division for the doubled value `m ≥ 0`.
* Phaser visual objects (auras, tethers, pings, tweens, camera shake) carry no
  game state; only the fields the game logic reads back (alpha, stroke, blend
  mode of a player shape) are modelled.  `Phaser.Time` one-shot timers are
  modelled by the effect expiry timestamps together with explicit "fire"
  functions that are the bodies of the scheduled callbacks.
* Euclidean distance comparisons `dist ≤ R` with `R > 0` are modelled by the
  equivalent squared comparison `distSq ≤ R^2` on integer coordinates.
-/

namespace Arena

/-- Game modes referenced by `ArenaScene` (`settings.mode`). -/
inductive GameMode
  | classic
  | minefield
  | pursuit
  | shooting
deriving DecidableEq, Repr

/-- `type PlayerRole = 'collector' | 'chaser'`. -/
inductive PlayerRole
  | collector
  | chaser
deriving DecidableEq, Repr

/-- `PlayerEffect['type'] = 'boost' | 'slow' | 'cloak'`. -/
inductive EffectType
  | boost
  | slow
  | cloak
deriving DecidableEq, Repr

/-- `type BehaviorEffect = 'boost' | 'slow' | 'cloak' | 'disrupt'`. -/
inductive BehaviorEffect
  | boost
  | slow
  | cloak
  | disrupt
deriving DecidableEq, Repr

/-- Win reasons passed to `recordWin`. -/
inductive WinReason
  | score
  | debt
  | tag
  | timer
deriving DecidableEq, Repr

/-- `type UpgradeId = 'afterburner' | 'reserve-core' | 'hook-stock'` from
`src/state/currency.ts`. -/
inductive UpgradeId
  | afterburner
  | reserveCore
  | hookStock
deriving DecidableEq, Repr

/-- Blend mode of a player shape (`Phaser.BlendModes.NORMAL / ADD`). -/
inductive BlendMode
  | normal
  | add
deriving DecidableEq, Repr

/-! ## Currency ledger (`src/state/currency.ts`) -/

/-- `PlayerCurrencyState` from `src/state/currency.ts`. -/
structure PlayerCurrencyState where
  balance : Int
  totalEarned : Int
  recentEarnings : Int
  queuedUpgrades : List UpgradeId
deriving DecidableEq, Repr

/-- One `UpgradeDefinition` entry (label/description text omitted: the game
logic only reads `id` and `cost`). -/
structure UpgradeDefinition where
  id : UpgradeId
  cost : Int
deriving DecidableEq, Repr

/-- `UPGRADE_CATALOG` from `src/state/currency.ts`. -/
def UPGRADE_CATALOG : List UpgradeDefinition :=
  [⟨.afterburner, 3⟩, ⟨.reserveCore, 2⟩, ⟨.hookStock, 2⟩]

/-- The fresh entry created by `ensureEntry` for an unknown player id. -/
def freshEntry : PlayerCurrencyState :=
  { balance := 0, totalEarned := 0, recentEarnings := 0, queuedUpgrades := [] }

/-- `awardCurrency` from `src/state/currency.ts`, acting on one entry. -/
def awardCurrency (e : PlayerCurrencyState) (amount : Int) : PlayerCurrencyState :=
  { e with
    balance := e.balance + amount
    totalEarned := e.totalEarned + amount
    recentEarnings := amount }

/-- `UPGRADE_CATALOG.find((item) => item.id === upgradeId)`. -/
def findUpgrade (u : UpgradeId) : Option UpgradeDefinition :=
  UPGRADE_CATALOG.find? (fun item => decide (item.id = u))

/-- `spendCurrency` from `src/state/currency.ts`: returns the success flag and
the (possibly unchanged) entry. -/
def spendCurrency (e : PlayerCurrencyState) (u : UpgradeId) :
    Bool × PlayerCurrencyState :=
  match findUpgrade u with
  | none => (false, e)
  | some upgrade =>
    if e.balance < upgrade.cost then (false, e)
    else
      (true,
        { e with
          balance := e.balance - upgrade.cost
          recentEarnings := 0
          queuedUpgrades := e.queuedUpgrades ++ [upgrade.id] })

/-- `pullQueuedUpgrades` from `src/state/currency.ts`: drains the queue. -/
def pullQueuedUpgrades (e : PlayerCurrencyState) :
    List UpgradeId × PlayerCurrencyState :=
  (e.queuedUpgrades, { e with queuedUpgrades := [] })

/-- An operation on one player's ledger entry: the mutations exposed by
`src/state/currency.ts`. -/
inductive LedgerOp
  | award (amount : Int)
  | spend (u : UpgradeId)
  | drain
deriving DecidableEq, Repr

/-- Apply one ledger operation to an entry. -/
def applyLedgerOp (e : PlayerCurrencyState) (op : LedgerOp) : PlayerCurrencyState :=
  match op with
  | .award a => awardCurrency e a
  | .spend u => (spendCurrency e u).2
  | .drain => (pullQueuedUpgrades e).2

/-- Run a sequence of ledger operations. -/
def runLedgerOps (e : PlayerCurrencyState) (ops : List LedgerOp) : PlayerCurrencyState :=
  ops.foldl applyLedgerOp e

lemma UPGRADE_CATALOG_cost_nonneg :
    ∀ d ∈ UPGRADE_CATALOG, 0 ≤ d.cost := by decide

lemma applyLedgerOp_invariant (e : PlayerCurrencyState) (op : LedgerOp)
    (hb : e.balance ≤ e.totalEarned)
    (hpos : ∀ a : Int, op = LedgerOp.award a → 0 ≤ a) :
    (applyLedgerOp e op).balance ≤ (applyLedgerOp e op).totalEarned ∧
    e.totalEarned ≤ (applyLedgerOp e op).totalEarned := by
  cases op with
  | award a =>
    have ha : 0 ≤ a := hpos a rfl
    simp only [applyLedgerOp, awardCurrency]
    constructor <;> omega
  | spend u =>
    simp only [applyLedgerOp, spendCurrency]
    cases hfind : findUpgrade u with
    | none => exact ⟨hb, le_refl _⟩
    | some upgrade =>
      have hcost : 0 ≤ upgrade.cost :=
        UPGRADE_CATALOG_cost_nonneg upgrade (List.mem_of_find?_eq_some hfind)
      by_cases hbal : e.balance < upgrade.cost
      · simp [hbal, hb]
      · simp only [hbal, if_false]
        refine ⟨?_, ?_⟩
        · show e.balance - upgrade.cost ≤ e.totalEarned
          omega
        · show e.totalEarned ≤ e.totalEarned
          exact le_refl _
  | drain =>
    simp only [applyLedgerOp, pullQueuedUpgrades]
    exact ⟨hb, le_refl _⟩

lemma runLedgerOps_invariant (e : PlayerCurrencyState) (ops : List LedgerOp)
    (hb : e.balance ≤ e.totalEarned)
    (hpos : ∀ a : Int, LedgerOp.award a ∈ ops → 0 ≤ a) :
    (runLedgerOps e ops).balance ≤ (runLedgerOps e ops).totalEarned ∧
    e.totalEarned ≤ (runLedgerOps e ops).totalEarned := by
  induction ops generalizing e with
  | nil => exact ⟨hb, le_refl _⟩
  | cons op rest ih =>
    have hstep := applyLedgerOp_invariant e op hb
      (fun a ha => hpos a (by simp [ha]))
    have hrest := ih (applyLedgerOp e op) hstep.1
      (fun a ha => hpos a (by simp [ha]))
    refine ⟨hrest.1, le_trans hstep.2 hrest.2⟩

/-! ## Constants from `ArenaScene.ts` -/

def HOOK_RANGE : Int := 280
def HOOK_DURATION : Int := 320
def HOOK_COOLDOWN : Int := 1800
def MAX_HOOK_CHARGES : Int := 3
def MAX_SPAWN_ATTEMPTS : Nat := 30
def CLOAK_DURATION : Int := 4500
def DISRUPT_DURATION : Int := 3500

/-! ## Player state -/

/-- Stroke style set by `shape.setStrokeStyle(width, color, alpha)`; `none`
models the argument-less reset `shape.setStrokeStyle()`. -/
structure Stroke where
  lineWidth : Int
  color : Int
  alpha : Rat
deriving DecidableEq, Repr

/-- `type PlayerEffect` (the `aura` game object is reduced to whether one was
shown; its color field is retained). -/
structure PlayerEffect where
  type : EffectType
  aura : Bool
  expires : Int
  duration : Int
  color : Int
deriving DecidableEq, Repr

/-- The `Player` record of `ArenaScene.ts`, restricted to the fields the
embedded game logic reads or writes.  `x`/`y` stand for `shape.x`/`shape.y`;
`alpha`, `stroke` and `blend` are the visual fields of the player's shape that
the cloak logic mutates.  Input keys, the physics body and velocities are
omitted (no claim depends on them). -/
structure Player where
  id : String
  x : Int
  y : Int
  score : Int
  health : Int
  maxHealth : Int
  wins : Nat
  role : PlayerRole
  roleSpeedMultiplier : Rat
  speedMultiplier : Rat
  surfaceMultiplier : Rat
  hookCharges : Int
  maxHookCharges : Int
  activeEffect : Option PlayerEffect
  alpha : Rat
  stroke : Option Stroke
  blend : BlendMode
deriving DecidableEq, Repr

/-- Squared Euclidean distance between two players
(`Phaser.Math.Distance.Between` squared). -/
def distSq (a b : Player) : Int :=
  (a.x - b.x) ^ 2 + (a.y - b.y) ^ 2

/-- `isPlayerCloaked`: `player.activeEffect?.type === 'cloak'`. -/
def isPlayerCloaked (p : Player) : Bool :=
  match p.activeEffect with
  | some e => decide (e.type = EffectType.cloak)
  | none => false

/-- `Phaser.Math.Clamp(value, min, max) = Math.max(min, Math.min(max, value))`. -/
def clampI (value lo hi : Int) : Int :=
  max lo (min hi value)

/-- `adjustHookCharges` (the gained-charge status ping is visual only). -/
def adjustHookCharges (p : Player) (delta : Int) : Player :=
  { p with hookCharges := clampI (p.hookCharges + delta) 0 p.maxHookCharges }

/-- `applyUpgradeEffect`; `shooting` is `this.isShootingMode()`. -/
def applyUpgradeEffect (shooting : Bool) (p : Player) (u : UpgradeId) : Player :=
  match u with
  | .afterburner => { p with speedMultiplier := p.speedMultiplier + 1/10 }
  | .reserveCore =>
    if shooting then
      let h := min p.maxHealth (p.health + 1)
      { p with health := h, score := h }
    else
      { p with score := p.score + 1 }
  | .hookStock =>
    let m := p.maxHookCharges + 1
    { p with maxHookCharges := m, hookCharges := min m (p.hookCharges + 1) }

/-- The per-player configuration assembled in `create()` and passed to
`createPlayer`. -/
structure PlayerConfig where
  id : String
  x : Int
  y : Int
  wins : Nat
  role : PlayerRole
  roleSpeedMultiplier : Rat
  maxHookCharges : Int
  maxHealth : Int
deriving DecidableEq, Repr

/-- `createPlayer` followed by `applyQueuedUpgrades` (which folds
`applyUpgradeEffect` over the drained upgrade queue `queued`). -/
def createPlayer (shooting : Bool) (cfg : PlayerConfig) (queued : List UpgradeId) :
    Player :=
  let p : Player :=
    { id := cfg.id
      x := cfg.x
      y := cfg.y
      score := if shooting then cfg.maxHealth else 0
      health := cfg.maxHealth
      maxHealth := cfg.maxHealth
      wins := cfg.wins
      role := cfg.role
      roleSpeedMultiplier := cfg.roleSpeedMultiplier
      speedMultiplier := 1
      surfaceMultiplier := 1
      hookCharges := cfg.maxHookCharges
      maxHookCharges := cfg.maxHookCharges
      activeEffect := none
      alpha := 1
      stroke := none
      blend := .normal }
  queued.foldl (fun q u => applyUpgradeEffect shooting q u) p

/-! ## Timed effects (`setPlayerEffect` / `clearPlayerEffect` and friends)

The `this.time.delayedCall(duration, cb)` scheduled by `applySpeedModifier` and
`applyCloak` are modelled by explicit fire functions (`speedResetFire`,
`cloakExpireFire`) whose bodies are the respective callbacks. -/

/-- `getEffectColor`. -/
def getEffectColor (t : EffectType) : Int :=
  match t with
  | .boost => 0x00f0ff
  | .slow => 0xff006e
  | .cloak => 0xf4f4f4

/-- `clearPlayerEffect`: resets cloak visuals if the active effect is a cloak,
destroys the aura, clears the effect. -/
def clearPlayerEffect (p : Player) : Player :=
  if (match p.activeEffect with
      | some e => decide (e.type = EffectType.cloak)
      | none => false) then
    { p with alpha := 1, stroke := none, blend := .normal, activeEffect := none }
  else
    { p with activeEffect := none }

/-- `setPlayerEffect`: replaces any current effect; an aura is shown unless
suppressed by options or the type is cloak. -/
def setPlayerEffect (p : Player) (t : EffectType) (now duration : Int)
    (tint : Option Int) (showAura : Option Bool) : Player :=
  let p1 := clearPlayerEffect p
  let color := tint.getD (getEffectColor t)
  let shouldShowAura := showAura.getD (decide (t ≠ EffectType.cloak))
  { p1 with
    activeEffect := some
      { type := t, aura := shouldShowAura, expires := now + duration
        duration := duration, color := color } }

/-- `applySpeedModifier`: sets the multiplier, replaces the effect, and
schedules the reset callback (`speedResetFire`) after `duration`. -/
def applySpeedModifier (p : Player) (multiplier : Rat) (now duration : Int)
    (t : EffectType) : Player :=
  let p1 := { p with speedMultiplier := multiplier }
  setPlayerEffect p1 t now duration none none

/-- Body of the timer scheduled by `applySpeedModifier`. -/
def speedResetFire (p : Player) : Player :=
  clearPlayerEffect { p with speedMultiplier := 1 }

/-- `applyCloak`: cloak effect without aura, near-invisible shape with a faint
stroke and additive blending; schedules `cloakExpireFire` after `duration`. -/
def applyCloak (p : Player) (now duration : Int) : Player :=
  let p1 := setPlayerEffect p .cloak now duration (some 0xffffff) (some false)
  { p1 with
    alpha := 1/20
    stroke := some { lineWidth := 1, color := 0xffffff, alpha := 1/5 }
    blend := .add }

/-- Body of the timer scheduled by `applyCloak`: only clears if the cloak is
still the active effect. -/
def cloakExpireFire (p : Player) : Player :=
  if (match p.activeEffect with
      | some e => decide (e.type = EffectType.cloak)
      | none => false) then
    clearPlayerEffect p
  else
    p

/-! ## Association lists

`Record<string, T>` objects of the scene (`matchWins`, `hookTimers`,
`activeHooks`, `lastRoundEarnings`, the currency `balances`) are modelled as
association lists with at most one binding per key. -/

def lookupA {α : Type} (l : List (String × α)) (k : String) : Option α :=
  match l with
  | [] => none
  | (k0, v) :: rest => if k0 = k then some v else lookupA rest k

def lookupD {α : Type} (l : List (String × α)) (k : String) (d : α) : α :=
  (lookupA l k).getD d

def setA {α : Type} (l : List (String × α)) (k : String) (v : α) :
    List (String × α) :=
  match l with
  | [] => [(k, v)]
  | (k0, v0) :: rest =>
    if k0 = k then (k, v) :: rest else (k0, v0) :: setA rest k v

lemma lookupA_setA_self {α : Type} (l : List (String × α)) (k : String) (v : α) :
    lookupA (setA l k v) k = some v := by
  induction l with
  | nil => simp [setA, lookupA]
  | cons hd tl ih =>
    obtain ⟨k0, v0⟩ := hd
    by_cases h : k0 = k
    · simp [setA, h, lookupA]
    · simp [setA, h, lookupA, ih]

lemma lookupA_setA_ne {α : Type} (l : List (String × α)) (k k2 : String) (v : α)
    (h : k ≠ k2) :
    lookupA (setA l k v) k2 = lookupA l k2 := by
  induction l with
  | nil => simp [setA, lookupA, h]
  | cons hd tl ih =>
    obtain ⟨k0, v0⟩ := hd
    by_cases h0 : k0 = k
    · subst h0
      simp [setA, lookupA, h]
    · simp only [setA, h0, if_false]
      by_cases h2 : k0 = k2
      · simp [lookupA, h2]
      · simp [lookupA, h2, ih]

/-! ## Scene state -/

/-- The settings fields `ArenaScene` reads during a round
(`GameSettings` in `src/state/settings.ts`). -/
structure GameSettings where
  mode : GameMode
  winningScore : Int
  negativeLossThreshold : Int
  chaserTagGoal : Int
  shootingHealth : Int
  projectileDamage : Int
deriving DecidableEq, Repr

/-- One entry of `activeHooks`: the tether visual is elided, the target is
referenced by id. -/
structure Hook where
  targetId : String
  expires : Int
deriving DecidableEq, Repr

/-- The round-relevant mutable state of `ArenaScene`.

`intermissions` counts calls of `launchUpgradeIntermission` (whose DOM modal
and scene restart are external).  `lastWin` records the winner id and reason of
the most recent `recordWin` (the reason is consumed by the win flare and the
currency payout).  `now` models `this.time.now`. -/
structure Scene where
  players : List Player
  roundOver : Bool
  matchWins : List (String × Nat)
  ledger : List (String × PlayerCurrencyState)
  lastRoundEarnings : List (String × Int)
  intermissions : Nat
  lastWin : Option (String × WinReason)
  settings : GameSettings
  now : Int
  hookTimers : List (String × Int)
  activeHooks : List (String × Option Hook)
  modeTimerActive : Bool
deriving DecidableEq, Repr

/-- Mutating the player object found by id (source code mutates the `Player`
object in place; ids are unique per `getPlayerBindings`). -/
def updatePlayer (s : Scene) (pid : String) (f : Player → Player) : Scene :=
  { s with players := s.players.map (fun p => if p.id = pid then f p else p) }

/-- `this.players.find((p) => p.id === pid)`. -/
def findPlayer (s : Scene) (pid : String) : Option Player :=
  s.players.find? (fun p => decide (p.id = pid))

/-- `this.players.find((p) => p.id !== pid)` — the "opponent". -/
def findOpponent (s : Scene) (pid : String) : Option Player :=
  s.players.find? (fun p => decide (p.id ≠ pid))

/-! ## Round payouts and win recording -/

/-- `Math.round(m * 0.5)` for an integer `m ≥ 0` (JS rounds halves up). -/
def jsRoundHalf (m : Int) : Int :=
  (m + 1) / 2

/-- The reason-dependent win bonus of `grantRoundCurrency`. -/
def winBonus (reason : WinReason) : Int :=
  match reason with
  | .tag => 3
  | .score => 2
  | .timer => 1
  | .debt => 1

/-- The amount awarded to one player by `grantRoundCurrency`:
`base = Math.max(1, Math.round(Math.max(score, 0) * 0.5))`,
`bonus = winner ? winBonus : 1`, `total = Math.max(1, base + bonus)`. -/
def payoutAmount (winnerId : String) (reason : WinReason) (p : Player) : Int :=
  let base := max 1 (jsRoundHalf (max p.score 0))
  let bonus := if p.id = winnerId then winBonus reason else 1
  max 1 (base + bonus)

/-- `getCurrency` / `ensureEntry` on the process-wide `balances` record. -/
def getEntry (l : List (String × PlayerCurrencyState)) (pid : String) :
    PlayerCurrencyState :=
  (lookupA l pid).getD freshEntry

/-- One iteration of the `grantRoundCurrency` loop over `this.players`,
threading the `balances` record and `lastRoundEarnings`. -/
def grantStep (winnerId : String) (reason : WinReason)
    (acc : List (String × PlayerCurrencyState) × List (String × Int))
    (p : Player) :
    List (String × PlayerCurrencyState) × List (String × Int) :=
  let total := payoutAmount winnerId reason p
  (setA acc.1 p.id (awardCurrency (getEntry acc.1 p.id) total),
    setA acc.2 p.id total)

/-- `grantRoundCurrency`. -/
def grantRoundCurrency (s : Scene) (winnerId : String) (reason : WinReason) :
    Scene :=
  let res := s.players.foldl (grantStep winnerId reason)
    (s.ledger, s.lastRoundEarnings)
  { s with ledger := res.1, lastRoundEarnings := res.2 }

/-- `recordWin`: guarded by the `roundOver` flag; sets it, cancels the mode
timer, increments the winner's match wins, releases all hooks, pays out the
round currency and launches the upgrade intermission.  (The win flare is
visual; `lastWin` records which win was announced.) -/
def recordWin (s : Scene) (winnerId : String) (reason : WinReason) : Scene :=
  if s.roundOver then s
  else
    let newWins := lookupD s.matchWins winnerId 0 + 1
    let s1 : Scene :=
      { s with
        roundOver := true
        modeTimerActive := false
        matchWins := setA s.matchWins winnerId newWins
        players := s.players.map
          (fun p => if p.id = winnerId then { p with wins := newWins } else p)
        activeHooks := s.activeHooks.map (fun kv => (kv.1, none))
        lastWin := some (winnerId, reason) }
    let s2 := grantRoundCurrency s1 winnerId reason
    { s2 with intermissions := s2.intermissions + 1 }

/-- `evaluateScore(player)`, keyed by the player's id.  (The source receives
the `Player` object; an id without a matching player cannot arise there.) -/
def evaluateScore (s : Scene) (pid : String) : Scene :=
  if s.roundOver then s
  else
    match findPlayer s pid with
    | none => s
    | some player =>
      if s.settings.mode = GameMode.shooting then
        if player.health ≤ 0 then
          match findOpponent s pid with
          | some opp => recordWin s opp.id .score
          | none => s
        else s
      else if s.settings.mode = GameMode.pursuit then
        if player.role = PlayerRole.collector ∧
            player.score ≥ s.settings.winningScore then
          recordWin s pid .score
        else if player.role = PlayerRole.chaser ∧
            player.score ≥ s.settings.chaserTagGoal then
          recordWin s pid .tag
        else if player.role = PlayerRole.collector ∧
            player.score ≤ s.settings.negativeLossThreshold then
          match s.players.find? (fun p => decide (p.role = PlayerRole.chaser)) with
          | some chaser => recordWin s chaser.id .debt
          | none => s
        else s
      else
        if player.score ≥ s.settings.winningScore then
          recordWin s pid .score
        else if player.score ≤ s.settings.negativeLossThreshold then
          match findOpponent s pid with
          | some opp => recordWin s opp.id .debt
          | none => recordWin s pid .debt
        else s

/-- `damageShields(player, amount)` (the hit flash color is visual only). -/
def damageShields (s : Scene) (pid : String) (amount : Int) : Scene :=
  match findPlayer s pid with
  | none => s
  | some player =>
    if s.settings.mode ≠ GameMode.shooting then
      let s1 := updatePlayer s pid (fun p => { p with score := p.score - amount })
      evaluateScore s1 pid
    else
      let newHealth := max 0 (player.health - amount)
      let s1 := updatePlayer s pid
        (fun p => { p with health := newHealth, score := newHealth })
      if newHealth ≤ 0 then
        match findOpponent s1 pid with
        | some opp => recordWin s1 opp.id .score
        | none => s1
      else s1

/-! ## Overlap handlers wired in `create()`

Each handler acts on the scene and additionally reports whether the overlapped
pickup object was destroyed (`orb.destroy()` / `item.destroy()` /
`shard.destroy()`); the delayed respawn of consumed pickups happens outside the
modelled scene state. -/

structure HandlerResult where
  scene : Scene
  pickupDestroyed : Bool
deriving DecidableEq, Repr

/-- The hazard overlap handler (ArenaScene `create()`, hazards group). -/
def hazardOverlapHandler (s : Scene) (pid : String) : HandlerResult :=
  match findPlayer s pid with
  | none => ⟨s, false⟩
  | some player =>
    if isPlayerCloaked player then ⟨s, false⟩
    else if s.settings.mode = GameMode.shooting then
      ⟨damageShields s pid s.settings.projectileDamage, true⟩
    else if s.settings.mode = GameMode.pursuit ∧
        player.role ≠ PlayerRole.collector then
      ⟨s, true⟩
    else
      let s1 := updatePlayer s pid (fun p => { p with score := p.score - 2 })
      ⟨evaluateScore s1 pid, true⟩

/-- The behavior-pickup overlap handler (ArenaScene `create()`). -/
def behaviorOverlapHandler (s : Scene) (pid : String) (effect : BehaviorEffect) :
    HandlerResult :=
  match findPlayer s pid with
  | none => ⟨s, false⟩
  | some player =>
    if isPlayerCloaked player ∧
        (effect = BehaviorEffect.slow ∨ effect = BehaviorEffect.disrupt) then
      ⟨s, false⟩
    else
      match effect with
      | .boost =>
        ⟨updatePlayer s pid
          (fun p => applySpeedModifier p (3/2) s.now 3500 .boost), true⟩
      | .slow =>
        ⟨updatePlayer s pid
          (fun p => applySpeedModifier p (3/5) s.now 3500 .slow), true⟩
      | .cloak =>
        ⟨updatePlayer s pid (fun p => applyCloak p s.now CLOAK_DURATION), true⟩
      | .disrupt =>
        match findOpponent s pid with
        | none => ⟨s, true⟩
        | some opp =>
          ⟨updatePlayer s opp.id
            (fun p => applySpeedModifier p (11/20) s.now DISRUPT_DURATION .slow),
            true⟩

/-- The skull-pickup overlap handler (ArenaScene `create()`): destroys the
shard and awards the round to the opponent with reason `debt`. -/
def skullOverlapHandler (s : Scene) (pid : String) : HandlerResult :=
  match findPlayer s pid with
  | none => ⟨s, false⟩
  | some _player =>
    if s.roundOver then ⟨s, false⟩
    else
      let s1 :=
        match findOpponent s pid with
        | some opp => recordWin s opp.id .debt
        | none => s
      ⟨s1, true⟩

/-! ## Hook subsystem -/

/-- `attemptHook(player)`. The failed-charge status ping is visual; distance
`> HOOK_RANGE` is expressed on squared distances. -/
def attemptHook (s : Scene) (pid : String) : Scene :=
  match findPlayer s pid with
  | none => s
  | some player =>
    if s.roundOver then s
    else if s.now - lookupD s.hookTimers pid 0 < HOOK_COOLDOWN then s
    else if player.hookCharges ≤ 0 then s
    else
      match findOpponent s pid with
      | none => s
      | some target =>
        if distSq player target > HOOK_RANGE ^ 2 then s
        else
          let s1 : Scene :=
            { s with
              activeHooks := setA s.activeHooks pid
                (some { targetId := target.id, expires := s.now + HOOK_DURATION })
              hookTimers := setA s.hookTimers pid s.now }
          updatePlayer s1 pid (fun p => adjustHookCharges p (-1))

/-- The rope-pickup overlap handler charge effect:
`this.adjustHookCharges(player, 1)`. -/
def ropePickupCharge (s : Scene) (pid : String) : Scene :=
  updatePlayer s pid (fun p => adjustHookCharges p 1)

/-- The operations that touch a player's hook charges. -/
inductive HookOp
  | attempt (pid : String)
  | ropePickup (pid : String)
  | upgrade (pid : String) (u : UpgradeId)
deriving DecidableEq, Repr

def applyHookOp (s : Scene) (op : HookOp) : Scene :=
  match op with
  | .attempt pid => attemptHook s pid
  | .ropePickup pid => ropePickupCharge s pid
  | .upgrade pid u =>
    updatePlayer s pid
      (fun p => applyUpgradeEffect (decide (s.settings.mode = GameMode.shooting)) p u)

def runHookOps (s : Scene) (ops : List HookOp) : Scene :=
  ops.foldl applyHookOp s

/-! ## Duel-mode (shooting) operations that touch health/score -/

/-- `handleProjectileImpact` reduced to its state effect (`damageShields` with
`settings.projectileDamage`). -/
inductive DuelOp
  | projectileHit (pid : String)
  | hazardContact (pid : String)
  | shieldDamage (pid : String) (amount : Int)
  | upgrade (pid : String) (u : UpgradeId)
deriving DecidableEq, Repr

def applyDuelOp (s : Scene) (op : DuelOp) : Scene :=
  match op with
  | .projectileHit pid => damageShields s pid s.settings.projectileDamage
  | .hazardContact pid => (hazardOverlapHandler s pid).scene
  | .shieldDamage pid amount => damageShields s pid amount
  | .upgrade pid u =>
    updatePlayer s pid
      (fun p => applyUpgradeEffect (decide (s.settings.mode = GameMode.shooting)) p u)

def runDuelOps (s : Scene) (ops : List DuelOp) : Scene :=
  ops.foldl applyDuelOp s

/-! ## Spawn placement (`findSpawnPosition` / `circleOverlapsShapes`)

Occupied regions are the axis-aligned bounding boxes (`getBounds()`) of the
scene's entities, grouped exactly as `circleOverlapsShapes` enumerates them.
The `Phaser.Math.Between` draws of `findSpawnPosition` are an input stream. -/

structure Rect where
  x : Int
  y : Int
  width : Int
  height : Int
deriving DecidableEq, Repr

def Rect.right (r : Rect) : Int := r.x + r.width

def Rect.bottom (r : Rect) : Int := r.y + r.height

/-- `Phaser.Geom.Intersects.RectangleToRectangle`. -/
def rectangleToRectangle (a b : Rect) : Bool :=
  if a.width ≤ 0 ∨ a.height ≤ 0 ∨ b.width ≤ 0 ∨ b.height ≤ 0 then false
  else !(decide (a.right < b.x) || decide (a.bottom < b.y) ||
         decide (a.x > b.right) || decide (a.y > b.bottom))

/-- The bounding boxes of the groups that `circleOverlapsShapes` walks,
plus the skull pickups (which it does not walk) and the playfield size. -/
structure SpawnWorld where
  width : Int
  height : Int
  playerBounds : List Rect
  obstacles : List Rect
  movingObstacles : List Rect
  energy : List Rect
  rareEnergy : List Rect
  hazards : List Rect
  behaviorPickups : List Rect
  ropePickups : List Rect
  powerPickups : List Rect
  teleportPickups : List Rect
  skullPickups : List Rect
deriving DecidableEq, Repr

/-- The bounding box of the clearance circle built in `circleOverlapsShapes`. -/
def circleBounds (x y radius : Int) : Rect :=
  { x := x - radius, y := y - radius, width := 2 * radius, height := 2 * radius }

/-- The groups `circleOverlapsShapes` tests, in source order (the skull group
is absent there). -/
def checkedRegions (w : SpawnWorld) : List Rect :=
  w.playerBounds ++ w.obstacles ++ w.movingObstacles ++ w.energy ++
    w.rareEnergy ++ w.hazards ++ w.behaviorPickups ++ w.ropePickups ++
    w.powerPickups ++ w.teleportPickups

/-- `circleOverlapsShapes(circle)`. -/
def circleOverlapsShapes (w : SpawnWorld) (x y radius : Int) : Bool :=
  let bounds := circleBounds x y radius
  w.playerBounds.any (fun r => rectangleToRectangle bounds r) ||
  w.obstacles.any (fun r => rectangleToRectangle bounds r) ||
  w.movingObstacles.any (fun r => rectangleToRectangle bounds r) ||
  w.energy.any (fun r => rectangleToRectangle bounds r) ||
  w.rareEnergy.any (fun r => rectangleToRectangle bounds r) ||
  w.hazards.any (fun r => rectangleToRectangle bounds r) ||
  w.behaviorPickups.any (fun r => rectangleToRectangle bounds r) ||
  w.ropePickups.any (fun r => rectangleToRectangle bounds r) ||
  w.powerPickups.any (fun r => rectangleToRectangle bounds r) ||
  w.teleportPickups.any (fun r => rectangleToRectangle bounds r)

/-- `findSpawnPosition(radius)`: up to `MAX_SPAWN_ATTEMPTS` uniform draws
(taken from the stream `draws`, each produced by
`Between(radius, width - radius) × Between(radius, height - radius)`), return
the first non-overlapping one, else `undefined`. -/
def findSpawnPosition (w : SpawnWorld) (radius : Int) (draws : List (Int × Int)) :
    Option (Int × Int) :=
  (draws.take MAX_SPAWN_ATTEMPTS).find?
    (fun d => !circleOverlapsShapes w d.1 d.2 radius)

/-! ## Shared lemmas about `recordWin` -/

lemma grantRoundCurrency_roundOver (s : Scene) (w : String) (r : WinReason) :
    (grantRoundCurrency s w r).roundOver = s.roundOver := rfl

lemma recordWin_roundOver_of_false (s : Scene) (w : String) (r : WinReason)
    (hro : s.roundOver = false) :
    (recordWin s w r).roundOver = true := by
  simp [recordWin, hro, grantRoundCurrency]

lemma recordWin_noop_of_over (s : Scene) (w : String) (r : WinReason)
    (hro : s.roundOver = true) :
    recordWin s w r = s := by
  simp [recordWin, hro]

lemma evaluateScore_noop_of_over (s : Scene) (pid : String)
    (hro : s.roundOver = true) :
    evaluateScore s pid = s := by
  simp [evaluateScore, hro]

lemma recordWin_lastWin_of_false (s : Scene) (w : String) (r : WinReason)
    (hro : s.roundOver = false) :
    (recordWin s w r).lastWin = some (w, r) := by
  simp [recordWin, hro, grantRoundCurrency]

/-! ## Claim theorems -/

/-- Claim C1: once `recordWin` has set the round-over flag, every later call to
`recordWin` or `evaluateScore` within that round is a complete no-op on the
scene state (so no win-count increment, no second currency award, and no second
intermission can occur), until the next round's setup resets the flag. -/
theorem recordWin_round_over_idempotent (s : Scene) (w : String) (r : WinReason)
    (hro : s.roundOver = false) :
    (recordWin s w r).roundOver = true ∧
    (∀ w2 r2, recordWin (recordWin s w r) w2 r2 = recordWin s w r) ∧
    (∀ pid, evaluateScore (recordWin s w r) pid = recordWin s w r) := by
  have h1 := recordWin_roundOver_of_false s w r hro
  exact ⟨h1,
    fun w2 r2 => recordWin_noop_of_over _ w2 r2 h1,
    fun pid => evaluateScore_noop_of_over _ pid h1⟩

/-- Claim C5: in classic and minefield modes, a player at or below the
negative loss threshold hands the win (reason `debt`) to the opponent, or to
themselves when no opponent exists. -/
theorem evaluateScore_debt_forfeit (s : Scene) (pid : String) (p : Player)
    (hmode : s.settings.mode = GameMode.classic ∨
      s.settings.mode = GameMode.minefield)
    (hro : s.roundOver = false)
    (hfind : findPlayer s pid = some p)
    (hscore : p.score ≤ s.settings.negativeLossThreshold)
    (hlt : s.settings.negativeLossThreshold < s.settings.winningScore) :
    (∀ opp, findOpponent s pid = some opp →
      evaluateScore s pid = recordWin s opp.id .debt ∧
      (evaluateScore s pid).lastWin = some (opp.id, WinReason.debt)) ∧
    (findOpponent s pid = none →
      evaluateScore s pid = recordWin s pid .debt ∧
      (evaluateScore s pid).lastWin = some (pid, WinReason.debt)) := by
  have hnotWin : ¬ p.score ≥ s.settings.winningScore := by omega
  have hshoot : ¬ s.settings.mode = GameMode.shooting := by
    rcases hmode with h | h <;> simp [h]
  have hpursuit : ¬ s.settings.mode = GameMode.pursuit := by
    rcases hmode with h | h <;> simp [h]
  constructor
  · intro opp hopp
    have heval : evaluateScore s pid = recordWin s opp.id .debt := by
      simp [evaluateScore, hro, hfind, hshoot, hpursuit, hnotWin, hscore, hopp]
    exact ⟨heval, by rw [heval]; exact recordWin_lastWin_of_false s opp.id .debt hro⟩
  · intro hnone
    have heval : evaluateScore s pid = recordWin s pid .debt := by
      simp [evaluateScore, hro, hfind, hshoot, hpursuit, hnotWin, hscore, hnone]
    exact ⟨heval, by rw [heval]; exact recordWin_lastWin_of_false s pid .debt hro⟩

/-- Claim C10: for every sequence of award, spend and queue-drain operations
(with non-negative award amounts, as the round controller always awards at
least 1), `totalEarned` never decreases and `balance ≤ totalEarned` is
maintained; an award moves balance and totalEarned by the same amount, and a
spend leaves totalEarned alone, succeeds exactly when the balance covers the
catalog cost, subtracting it, and changes nothing on failure. -/
theorem currency_ledger_invariant (e : PlayerCurrencyState) (ops : List LedgerOp)
    (hb : e.balance ≤ e.totalEarned)
    (hpos : ∀ a : Int, LedgerOp.award a ∈ ops → 0 ≤ a) :
    ((runLedgerOps e ops).balance ≤ (runLedgerOps e ops).totalEarned ∧
      e.totalEarned ≤ (runLedgerOps e ops).totalEarned) ∧
    (∀ a : Int, (awardCurrency e a).balance = e.balance + a ∧
      (awardCurrency e a).totalEarned = e.totalEarned + a) ∧
    (∀ u d, findUpgrade u = some d →
      ((spendCurrency e u).1 = true ↔ d.cost ≤ e.balance) ∧
      ((spendCurrency e u).1 = true →
        (spendCurrency e u).2.balance = e.balance - d.cost ∧
        (spendCurrency e u).2.totalEarned = e.totalEarned) ∧
      ((spendCurrency e u).1 = false → (spendCurrency e u).2 = e)) ∧
    ((pullQueuedUpgrades e).2.balance = e.balance ∧
      (pullQueuedUpgrades e).2.totalEarned = e.totalEarned) := by
  refine ⟨runLedgerOps_invariant e ops hb hpos, ?_, ?_, ⟨rfl, rfl⟩⟩
  · intro a
    exact ⟨rfl, rfl⟩
  · intro u d hd
    by_cases hlt : e.balance < d.cost
    · simp [spendCurrency, hd, hlt]
    · simp [spendCurrency, hd, hlt]
      omega

/-! ## Concrete example states (used by witnesses and counterexamples) -/

def settingsClassic : GameSettings :=
  { mode := .classic
    winningScore := 10
    negativeLossThreshold := -5
    chaserTagGoal := 3
    shootingHealth := 5
    projectileDamage := 1 }

def playerOne : Player :=
  { id := "p1", x := 100, y := 100, score := 4, health := 5, maxHealth := 5
    wins := 0, role := .collector, roleSpeedMultiplier := 1
    speedMultiplier := 1, surfaceMultiplier := 1
    hookCharges := 3, maxHookCharges := 3
    activeEffect := none, alpha := 1, stroke := none, blend := .normal }

def playerTwo : Player :=
  { playerOne with id := "p2", x := 200, y := 150, score := -5 }

def sceneClassic : Scene :=
  { players := [playerOne, playerTwo]
    roundOver := false
    matchWins := []
    ledger := []
    lastRoundEarnings := []
    intermissions := 0
    lastWin := none
    settings := settingsClassic
    now := 5000
    hookTimers := []
    activeHooks := []
    modeTimerActive := false }

/-- Witness for C1 at a concrete classic-mode scene. -/
theorem recordWin_round_over_idempotent_witness :
    sceneClassic.roundOver = false ∧
    (recordWin sceneClassic "p1" .score).roundOver = true ∧
    recordWin (recordWin sceneClassic "p1" .score) "p2" .debt
      = recordWin sceneClassic "p1" .score ∧
    evaluateScore (recordWin sceneClassic "p1" .score) "p2"
      = recordWin sceneClassic "p1" .score :=
  ⟨rfl,
    (recordWin_round_over_idempotent sceneClassic "p1" .score rfl).1,
    (recordWin_round_over_idempotent sceneClassic "p1" .score rfl).2.1 "p2" .debt,
    (recordWin_round_over_idempotent sceneClassic "p1" .score rfl).2.2 "p2"⟩

/-- Witness for C5: player two has hit the debt threshold, the opponent
(player one) is recorded as the winner with reason `debt`. -/
theorem evaluateScore_debt_forfeit_witness :
    (findPlayer sceneClassic "p2" = some playerTwo ∧
      playerTwo.score ≤ sceneClassic.settings.negativeLossThreshold ∧
      findOpponent sceneClassic "p2" = some playerOne) ∧
    evaluateScore sceneClassic "p2" = recordWin sceneClassic playerOne.id .debt ∧
    (evaluateScore sceneClassic "p2").lastWin
      = some (playerOne.id, WinReason.debt) :=
  ⟨⟨by decide, by decide, by decide⟩,
    (evaluateScore_debt_forfeit sceneClassic "p2" playerTwo (Or.inl rfl) rfl
      (by decide) (by decide) (by decide)).1 playerOne (by decide)⟩

/-- Witness for C10 on a concrete operation sequence. -/
theorem currency_ledger_invariant_witness :
    (freshEntry.balance ≤ freshEntry.totalEarned ∧
      (∀ a : Int,
        LedgerOp.award a ∈
          [LedgerOp.award 5, LedgerOp.spend .reserveCore, LedgerOp.drain] →
        0 ≤ a)) ∧
    ((runLedgerOps freshEntry
        [LedgerOp.award 5, LedgerOp.spend .reserveCore, LedgerOp.drain]).balance ≤
      (runLedgerOps freshEntry
        [LedgerOp.award 5, LedgerOp.spend .reserveCore, LedgerOp.drain]).totalEarned ∧
      freshEntry.totalEarned ≤
      (runLedgerOps freshEntry
        [LedgerOp.award 5, LedgerOp.spend .reserveCore, LedgerOp.drain]).totalEarned) :=
  ⟨⟨by decide, by intro a ha; simp at ha; omega⟩,
    (currency_ledger_invariant freshEntry
      [LedgerOp.award 5, LedgerOp.spend .reserveCore, LedgerOp.drain]
      (by decide) (by intro a ha; simp at ha; omega)).1⟩

/-! ## C2: round payout -/

lemma grantFold_getEntry_not_mem (w : String) (r : WinReason) (ps : List Player)
    (acc : List (String × PlayerCurrencyState) × List (String × Int))
    (pid : String) (hnm : pid ∉ ps.map Player.id) :
    getEntry (ps.foldl (grantStep w r) acc).1 pid = getEntry acc.1 pid := by
  induction ps generalizing acc with
  | nil => rfl
  | cons q rest ih =>
    have hne : q.id ≠ pid := by
      intro he
      exact hnm (by simp [he])
    simp only [List.foldl_cons]
    rw [ih _ (fun hm => hnm (by simp; right; simpa using hm))]
    simp [grantStep, getEntry, lookupA_setA_ne _ q.id pid _ hne]

lemma grantFold_getEntry_mem (w : String) (r : WinReason) (ps : List Player)
    (acc : List (String × PlayerCurrencyState) × List (String × Int))
    (p : Player) (hp : p ∈ ps) (hnd : (ps.map Player.id).Nodup) :
    getEntry (ps.foldl (grantStep w r) acc).1 p.id
      = awardCurrency (getEntry acc.1 p.id) (payoutAmount w r p) := by
  induction ps generalizing acc with
  | nil => cases hp
  | cons q rest ih =>
    simp only [List.map_cons, List.nodup_cons] at hnd
    obtain ⟨hqnotin, hndrest⟩ := hnd
    simp only [List.foldl_cons]
    rcases List.mem_cons.mp hp with hpq | hprest
    · subst hpq
      rw [grantFold_getEntry_not_mem w r rest _ p.id hqnotin]
      simp [grantStep, getEntry, lookupA_setA_self]
    · have hne : q.id ≠ p.id := fun he =>
        hqnotin (he ▸ List.mem_map_of_mem Player.id hprest)
      rw [ih _ hprest hndrest]
      congr 1
      simp [grantStep, getEntry, lookupA_setA_ne _ q.id p.id _ hne]

/-- Counterexample to C2 as stated: player two is not the winner and has score
`-5`, so the claimed payout is the base alone,
`max(1, round(max(-5,0)*0.5)) = 1`; the code instead pays `2` (base plus the
flat non-winner bonus of 1). -/
theorem grantRoundCurrency_nonwinner_counterexample :
    playerTwo.id ≠ "p1" ∧
    max 1 (jsRoundHalf (max playerTwo.score 0)) = 1 ∧
    (getEntry (grantRoundCurrency sceneClassic "p1" .score).ledger "p2").balance
      = 2 := by decide

/-- Claim C2 (amended): at round end each player is paid
`max(1, base + bonus)` where `base = max(1, round(max(score,0)*0.5))` and
`bonus` is the reason-dependent win bonus (tag=3, score=2, timer=1, debt=1)
for the winner but a flat `1` for every non-winning player (not the base
alone). -/
theorem grantRoundCurrency_payout (s : Scene) (w : String) (r : WinReason)
    (p : Player) (hp : p ∈ s.players)
    (hnd : (s.players.map Player.id).Nodup) :
    (getEntry (grantRoundCurrency s w r).ledger p.id).balance
      = (getEntry s.ledger p.id).balance
        + max 1 (max 1 (jsRoundHalf (max p.score 0))
            + (if p.id = w then winBonus r else 1)) ∧
    (getEntry (grantRoundCurrency s w r).ledger p.id).totalEarned
      = (getEntry s.ledger p.id).totalEarned
        + max 1 (max 1 (jsRoundHalf (max p.score 0))
            + (if p.id = w then winBonus r else 1)) := by
  have h := grantFold_getEntry_mem w r s.players
    (s.ledger, s.lastRoundEarnings) p hp hnd
  have hl : (grantRoundCurrency s w r).ledger
      = (s.players.foldl (grantStep w r) (s.ledger, s.lastRoundEarnings)).1 := rfl
  rw [hl, h]
  exact ⟨rfl, rfl⟩

/-- Witness for the amended C2 at the concrete classic scene: the winner
(player one, score 4) is paid `base 2 + bonus 2 = 4`, the non-winner (player
two, score −5) is paid `base 1 + 1 = 2`. -/
theorem grantRoundCurrency_payout_witness :
    (playerTwo ∈ sceneClassic.players ∧
      (sceneClassic.players.map Player.id).Nodup) ∧
    (getEntry (grantRoundCurrency sceneClassic "p1" .score).ledger playerTwo.id).balance
      = (getEntry sceneClassic.ledger playerTwo.id).balance
        + max 1 (max 1 (jsRoundHalf (max playerTwo.score 0))
            + (if playerTwo.id = "p1" then winBonus .score else 1)) :=
  ⟨⟨by decide, by decide⟩,
    (grantRoundCurrency_payout sceneClassic "p1" .score playerTwo
      (by decide) (by decide)).1⟩

/-! ## C3: spawn placement -/

lemma circleOverlapsShapes_eq_false_iff (w : SpawnWorld) (x y radius : Int) :
    circleOverlapsShapes w x y radius = false ↔
    ∀ rect ∈ checkedRegions w,
      rectangleToRectangle (circleBounds x y radius) rect = false := by
  simp only [circleOverlapsShapes, Bool.or_eq_false_iff, List.any_eq_false,
    checkedRegions, List.mem_append, or_imp, forall_and, Bool.not_eq_true]

/-- Counterexample to C3 as stated: `circleOverlapsShapes` never walks the
skull-pickup group, so `findSpawnPosition` can return a position whose
clearance box overlaps a live skull pickup. -/
def skullRect : Rect := { x := 90, y := 90, width := 20, height := 20 }

def spawnWorldSkull : SpawnWorld :=
  { width := 800, height := 600
    playerBounds := [], obstacles := [], movingObstacles := []
    energy := [], rareEnergy := [], hazards := [], behaviorPickups := []
    ropePickups := [], powerPickups := [], teleportPickups := []
    skullPickups := [skullRect] }

def spawnWorldOpen : SpawnWorld := { spawnWorldSkull with skullPickups := [] }

theorem findSpawnPosition_skull_counterexample :
    skullRect ∈ spawnWorldSkull.skullPickups ∧
    (16 ≤ (100 : Int) ∧ (100 : Int) ≤ 800 - 16 ∧
      16 ≤ (100 : Int) ∧ (100 : Int) ≤ 600 - 16) ∧
    findSpawnPosition spawnWorldSkull 16 [(100, 100)] = some (100, 100) ∧
    rectangleToRectangle (circleBounds 100 100 16) skullRect = true := by decide

/-- Claim C3 (amended): any position returned by `findSpawnPosition` (drawn
from at most `MAX_SPAWN_ATTEMPTS` uniform draws inset by the clearance radius)
has a clearance bounding box that rectangle-overlaps none of the regions the
source checks — players, static and moving obstacles, and the energy, rare
energy, hazard, behavior, rope, power, and teleport pickups (skull pickups are
not checked); after all attempts fail, no position is returned. -/
theorem findSpawnPosition_clear (w : SpawnWorld) (radius : Int)
    (draws : List (Int × Int))
    (hdraws : ∀ d ∈ draws, radius ≤ d.1 ∧ d.1 ≤ w.width - radius ∧
      radius ≤ d.2 ∧ d.2 ≤ w.height - radius) :
    (∀ x y, findSpawnPosition w radius draws = some (x, y) →
      (radius ≤ x ∧ x ≤ w.width - radius ∧ radius ≤ y ∧ y ≤ w.height - radius) ∧
      circleOverlapsShapes w x y radius = false ∧
      ∀ rect ∈ checkedRegions w,
        rectangleToRectangle (circleBounds x y radius) rect = false) ∧
    ((∀ d ∈ draws.take MAX_SPAWN_ATTEMPTS,
        circleOverlapsShapes w d.1 d.2 radius = true) →
      findSpawnPosition w radius draws = none) := by
  constructor
  · intro x y hfind
    have hmem : (x, y) ∈ draws.take MAX_SPAWN_ATTEMPTS :=
      List.mem_of_find?_eq_some hfind
    have hmemd : (x, y) ∈ draws := List.take_subset _ _ hmem
    have hpred := List.find?_some hfind
    simp only [Bool.not_eq_true'] at hpred
    exact ⟨hdraws _ hmemd, hpred,
      (circleOverlapsShapes_eq_false_iff w x y radius).mp hpred⟩
  · intro hall
    apply List.find?_eq_none.mpr
    intro d hd
    simp [hall d hd]

/-- Witness for the amended C3: in an empty arena the single draw is accepted
and its clearance box is clear of every checked region. -/
theorem findSpawnPosition_clear_witness :
    (∀ d ∈ [((100 : Int), (100 : Int))],
      16 ≤ d.1 ∧ d.1 ≤ spawnWorldOpen.width - 16 ∧
      16 ≤ d.2 ∧ d.2 ≤ spawnWorldOpen.height - 16) ∧
    circleOverlapsShapes spawnWorldOpen 100 100 16 = false :=
  ⟨by decide,
    ((findSpawnPosition_clear spawnWorldOpen 16 [(100, 100)]
      (by decide)).1 100 100 (by decide)).2.1⟩

/-! ## C4: cloak suppression -/

def cloakedPlayerOne : Player :=
  { playerOne with
    activeEffect := some
      { type := .cloak, aura := false, expires := 9500, duration := 4500
        color := 0xffffff }
    alpha := 1/20
    stroke := some { lineWidth := 1, color := 0xffffff, alpha := 1/5 }
    blend := .add }

def sceneCloak : Scene :=
  { sceneClassic with players := [cloakedPlayerOne, playerTwo] }

/-- Counterexample to C4 as stated: the skull overlap handler never checks the
cloak, so a cloaked player touching a skull still consumes the pickup and
awards the round to the opponent (reason `debt`). -/
theorem skull_ignores_cloak_counterexample :
    isPlayerCloaked cloakedPlayerOne = true ∧
    sceneCloak.roundOver = false ∧
    (skullOverlapHandler sceneCloak "p1").pickupDestroyed = true ∧
    (skullOverlapHandler sceneCloak "p1").scene.lastWin
      = some ("p2", WinReason.debt) ∧
    lookupA (skullOverlapHandler sceneCloak "p1").scene.matchWins "p2"
      = some 1 := by decide

/-- Claim C4 (amended): while a player's cloak is active, hazard contact is a
complete no-op (no score loss, no shield damage, hazard not destroyed) and
slow/disrupt behavior pickups are not consumed; the skull pickup however is
*not* suppressed — it is still destroyed and still awards the round to the
opponent with reason `debt`. -/
theorem cloak_suppression (s : Scene) (pid : String) (p : Player)
    (hfind : findPlayer s pid = some p)
    (hcloak : isPlayerCloaked p = true) :
    hazardOverlapHandler s pid = ⟨s, false⟩ ∧
    (∀ e, e = BehaviorEffect.slow ∨ e = BehaviorEffect.disrupt →
      behaviorOverlapHandler s pid e = ⟨s, false⟩) ∧
    (s.roundOver = false →
      (skullOverlapHandler s pid).pickupDestroyed = true ∧
      (∀ opp, findOpponent s pid = some opp →
        (skullOverlapHandler s pid).scene = recordWin s opp.id .debt)) := by
  refine ⟨?_, ?_, ?_⟩
  · simp [hazardOverlapHandler, hfind, hcloak]
  · intro e he
    simp [behaviorOverlapHandler, hfind, hcloak, he]
  · intro hro
    constructor
    · simp [skullOverlapHandler, hfind, hro]
    · intro opp hopp
      simp [skullOverlapHandler, hfind, hro, hopp]

/-- Witness for the amended C4 at the concrete cloaked scene. -/
theorem cloak_suppression_witness :
    (findPlayer sceneCloak "p1" = some cloakedPlayerOne ∧
      isPlayerCloaked cloakedPlayerOne = true) ∧
    hazardOverlapHandler sceneCloak "p1" = ⟨sceneCloak, false⟩ ∧
    behaviorOverlapHandler sceneCloak "p1" BehaviorEffect.slow
      = ⟨sceneCloak, false⟩ ∧
    (skullOverlapHandler sceneCloak "p1").scene
      = recordWin sceneCloak playerTwo.id .debt :=
  ⟨⟨rfl, by decide⟩,
    (cloak_suppression sceneCloak "p1" cloakedPlayerOne rfl (by decide)).1,
    (cloak_suppression sceneCloak "p1" cloakedPlayerOne rfl (by decide)).2.1
      BehaviorEffect.slow (Or.inl rfl),
    ((cloak_suppression sceneCloak "p1" cloakedPlayerOne rfl (by decide)).2.2
      rfl).2 playerTwo rfl⟩

/-! ## C6: hook-charge bounds -/

/-- Charge bounds for one player. -/
def chargesOK (p : Player) : Prop :=
  0 ≤ p.hookCharges ∧ p.hookCharges ≤ p.maxHookCharges ∧ 0 ≤ p.maxHookCharges

instance (p : Player) : Decidable (chargesOK p) := by
  unfold chargesOK
  infer_instance

/-- Charge bounds for every player of a scene. -/
def sceneChargesOK (s : Scene) : Prop :=
  ∀ p ∈ s.players, chargesOK p

instance (s : Scene) : Decidable (sceneChargesOK s) := by
  unfold sceneChargesOK
  exact List.decidableBAll _ _

lemma adjustHookCharges_chargesOK (p : Player) (delta : Int)
    (hp : chargesOK p) :
    chargesOK (adjustHookCharges p delta) := by
  unfold chargesOK adjustHookCharges clampI at *
  simp only
  omega

lemma applyUpgradeEffect_chargesOK (shooting : Bool) (p : Player) (u : UpgradeId)
    (hp : chargesOK p) :
    chargesOK (applyUpgradeEffect shooting p u) := by
  unfold chargesOK applyUpgradeEffect at *
  cases u with
  | afterburner => simpa using hp
  | reserveCore =>
    cases shooting <;> simpa using hp
  | hookStock =>
    simp only
    omega

lemma updatePlayer_chargesOK (s : Scene) (pid : String) (f : Player → Player)
    (hf : ∀ p, chargesOK p → chargesOK (f p))
    (hs : sceneChargesOK s) :
    sceneChargesOK (updatePlayer s pid f) := by
  intro p hp
  simp only [updatePlayer] at hp
  obtain ⟨q, hq, rfl⟩ := List.mem_map.mp hp
  by_cases h : q.id = pid
  · simpa [h] using hf q (hs q hq)
  · simpa [h] using hs q hq

lemma attemptHook_chargesOK (s : Scene) (pid : String)
    (hs : sceneChargesOK s) :
    sceneChargesOK (attemptHook s pid) := by
  unfold attemptHook
  cases hfp : findPlayer s pid with
  | none => exact hs
  | some player =>
    by_cases h1 : s.roundOver = true
    · simp only [if_pos h1]; exact hs
    simp only [if_neg h1]
    by_cases h2 : s.now - lookupD s.hookTimers pid 0 < HOOK_COOLDOWN
    · simp only [if_pos h2]; exact hs
    simp only [if_neg h2]
    by_cases h3 : player.hookCharges ≤ 0
    · simp only [if_pos h3]; exact hs
    simp only [if_neg h3]
    cases hop : findOpponent s pid with
    | none => exact hs
    | some target =>
      by_cases h4 : distSq player target > HOOK_RANGE ^ 2
      · simp only [if_pos h4]; exact hs
      simp only [if_neg h4]
      exact updatePlayer_chargesOK _ pid _
        (fun p hp => adjustHookCharges_chargesOK p (-1) hp)
        (fun p hp => hs p hp)

lemma applyHookOp_chargesOK (s : Scene) (op : HookOp)
    (hs : sceneChargesOK s) :
    sceneChargesOK (applyHookOp s op) := by
  cases op with
  | attempt pid => exact attemptHook_chargesOK s pid hs
  | ropePickup pid =>
    exact updatePlayer_chargesOK s pid _
      (fun p hp => adjustHookCharges_chargesOK p 1 hp) hs
  | upgrade pid u =>
    exact updatePlayer_chargesOK s pid _
      (fun p hp => applyUpgradeEffect_chargesOK _ p u hp) hs

/-- Claim C6: along every sequence of hook attempts, rope pickups and
hook-stock (or other) upgrades, every player's hook charge count stays within
`0 .. maxHookCharges` (this holds at every prefix of the sequence). -/
theorem hook_charges_bounded (s : Scene) (pre suf : List HookOp)
    (hs : sceneChargesOK s) :
    sceneChargesOK (runHookOps s (pre ++ suf)) ∧
    sceneChargesOK (runHookOps s pre) := by
  have key : ∀ (ops : List HookOp) (t : Scene),
      sceneChargesOK t → sceneChargesOK (runHookOps t ops) := by
    intro ops
    induction ops with
    | nil => intro t ht; exact ht
    | cons op rest ih =>
      intro t ht
      exact ih _ (applyHookOp_chargesOK t op ht)
  exact ⟨key _ s hs, key _ s hs⟩

/-- Witness for C6: starting from the classic scene (both players at 3 of 3
charges), a hook attempt, a rope pickup and a hook-stock upgrade keep all
charges within bounds. -/
theorem hook_charges_bounded_witness :
    sceneChargesOK sceneClassic ∧
    sceneChargesOK (runHookOps sceneClassic
      ([HookOp.attempt "p1", HookOp.ropePickup "p1"] ++
        [HookOp.upgrade "p1" .hookStock])) :=
  ⟨by decide,
    (hook_charges_bounded sceneClassic
      [HookOp.attempt "p1", HookOp.ropePickup "p1"]
      [HookOp.upgrade "p1" .hookStock] (by decide)).1⟩

/-! ## C7: attemptHook silent failure -/

/-- Claim C7: `attemptHook` is a complete no-op on the scene state (no charge
consumed, no cooldown timestamp, no tether created or destroyed) whenever the
round is over, the shooter is on hook cooldown, the shooter has no charges, or
no other player is within hook range (squared Euclidean distance at most
`HOOK_RANGE ^ 2`). -/
theorem attemptHook_silent_noop (s : Scene) (pid : String) (p : Player)
    (hfind : findPlayer s pid = some p)
    (h : s.roundOver = true ∨
      s.now - lookupD s.hookTimers pid 0 < HOOK_COOLDOWN ∨
      p.hookCharges ≤ 0 ∨
      (∀ q ∈ s.players, q.id ≠ pid → distSq p q > HOOK_RANGE ^ 2)) :
    attemptHook s pid = s := by
  unfold attemptHook
  rw [hfind]
  by_cases h1 : s.roundOver = true
  · simp [h1]
  simp only [h1, if_false]
  by_cases h2 : s.now - lookupD s.hookTimers pid 0 < HOOK_COOLDOWN
  · simp [h2]
  simp only [if_neg h2]
  by_cases h3 : p.hookCharges ≤ 0
  · simp [h3]
  simp only [if_neg h3]
  have h4 : ∀ q ∈ s.players, q.id ≠ pid → distSq p q > HOOK_RANGE ^ 2 := by
    rcases h with a | a | a | a
    · exact absurd a h1
    · exact absurd a h2
    · exact absurd a h3
    · exact a
  cases hop : findOpponent s pid with
  | none => rfl
  | some target =>
    have hmem : target ∈ s.players := List.mem_of_find?_eq_some hop
    have hne : target.id ≠ pid := by
      have := List.find?_some hop
      simpa using this
    simp [if_pos (h4 target hmem hne)]

/-- Witness for C7: with the round over, a hook attempt changes nothing. -/
theorem attemptHook_silent_noop_witness :
    (findPlayer (recordWin sceneClassic "p1" .score) "p1" ≠ none ∧
      (recordWin sceneClassic "p1" .score).roundOver = true) ∧
    attemptHook (recordWin sceneClassic "p1" .score) "p1"
      = recordWin sceneClassic "p1" .score := by
  have hfind : findPlayer (recordWin sceneClassic "p1" .score) "p1"
      = some { playerOne with wins := 1 } := by decide
  refine ⟨⟨by rw [hfind]; simp, by decide⟩, ?_⟩
  exact attemptHook_silent_noop _ "p1" _ hfind (Or.inl (by decide))

/-! ## C8: effect round-trip -/

/-- Claim C8: for a player with no active effect and baseline visuals,
applying a boost/slow speed modifier (or a cloak) and letting its expiry timer
fire restores the speed multiplier to 1 and the uncloaked visual state (full
alpha, no stroke, normal blending), with no effect left. -/
theorem effect_round_trip (p : Player) (now duration : Int)
    (heff : p.activeEffect = none)
    (halpha : p.alpha = 1)
    (hstroke : p.stroke = none)
    (hblend : p.blend = BlendMode.normal)
    (hmult : p.speedMultiplier = 1) :
    (∀ (multiplier : Rat) (t : EffectType),
      (speedResetFire (applySpeedModifier p multiplier now duration t)).speedMultiplier = 1 ∧
      (speedResetFire (applySpeedModifier p multiplier now duration t)).activeEffect = none ∧
      (speedResetFire (applySpeedModifier p multiplier now duration t)).alpha = 1 ∧
      (speedResetFire (applySpeedModifier p multiplier now duration t)).stroke = none ∧
      (speedResetFire (applySpeedModifier p multiplier now duration t)).blend = BlendMode.normal) ∧
    ((cloakExpireFire (applyCloak p now duration)).speedMultiplier = 1 ∧
      (cloakExpireFire (applyCloak p now duration)).activeEffect = none ∧
      (cloakExpireFire (applyCloak p now duration)).alpha = 1 ∧
      (cloakExpireFire (applyCloak p now duration)).stroke = none ∧
      (cloakExpireFire (applyCloak p now duration)).blend = BlendMode.normal) := by
  constructor
  · intro multiplier t
    cases t <;>
      simp [speedResetFire, applySpeedModifier, setPlayerEffect, clearPlayerEffect,
        heff, halpha, hstroke, hblend]
  · simp [cloakExpireFire, applyCloak, setPlayerEffect, clearPlayerEffect,
      heff, hmult]

/-- Witness for C8 at a concrete baseline player (boost 1.5× and cloak). -/
theorem effect_round_trip_witness :
    (playerOne.activeEffect = none ∧ playerOne.alpha = 1 ∧
      playerOne.stroke = none ∧ playerOne.blend = BlendMode.normal ∧
      playerOne.speedMultiplier = 1) ∧
    ((speedResetFire (applySpeedModifier playerOne (3/2) 1000 3500 .boost)).speedMultiplier = 1 ∧
      (speedResetFire (applySpeedModifier playerOne (3/2) 1000 3500 .boost)).activeEffect = none ∧
      (speedResetFire (applySpeedModifier playerOne (3/2) 1000 3500 .boost)).alpha = 1 ∧
      (speedResetFire (applySpeedModifier playerOne (3/2) 1000 3500 .boost)).stroke = none ∧
      (speedResetFire (applySpeedModifier playerOne (3/2) 1000 3500 .boost)).blend = BlendMode.normal) ∧
    ((cloakExpireFire (applyCloak playerOne 1000 3500)).speedMultiplier = 1 ∧
      (cloakExpireFire (applyCloak playerOne 1000 3500)).activeEffect = none ∧
      (cloakExpireFire (applyCloak playerOne 1000 3500)).alpha = 1 ∧
      (cloakExpireFire (applyCloak playerOne 1000 3500)).stroke = none ∧
      (cloakExpireFire (applyCloak playerOne 1000 3500)).blend = BlendMode.normal) :=
  ⟨⟨rfl, rfl, rfl, rfl, rfl⟩,
    (effect_round_trip playerOne 1000 3500 rfl rfl rfl rfl rfl).1 (3/2) .boost,
    (effect_round_trip playerOne 1000 3500 rfl rfl rfl rfl rfl).2⟩

/-! ## C9: duel-mode score/health coupling -/

/-- `score = health` for every player of a scene. -/
def scoreHealthOK (s : Scene) : Prop :=
  ∀ p ∈ s.players, p.score = p.health

instance (s : Scene) : Decidable (scoreHealthOK s) := by
  unfold scoreHealthOK
  exact List.decidableBAll _ _

lemma recordWin_scoreHealth (s : Scene) (w : String) (r : WinReason)
    (hs : scoreHealthOK s) :
    scoreHealthOK (recordWin s w r) := by
  unfold recordWin
  by_cases h : s.roundOver = true
  · simp only [if_pos h]; exact hs
  · simp only [if_neg h]
    intro p hp
    have hp2 : p ∈ s.players.map
        (fun q => if q.id = w then { q with wins := lookupD s.matchWins w 0 + 1 } else q) := hp
    obtain ⟨q, hq, rfl⟩ := List.mem_map.mp hp2
    by_cases hid : q.id = w
    · simpa [hid] using hs q hq
    · simpa [hid] using hs q hq

lemma updatePlayer_scoreHealth (s : Scene) (pid : String) (f : Player → Player)
    (hf : ∀ p, p.score = p.health → (f p).score = (f p).health)
    (hs : scoreHealthOK s) :
    scoreHealthOK (updatePlayer s pid f) := by
  intro p hp
  simp only [updatePlayer] at hp
  obtain ⟨q, hq, rfl⟩ := List.mem_map.mp hp
  by_cases h : q.id = pid
  · simpa [h] using hf q (hs q hq)
  · simpa [h] using hs q hq

lemma evaluateScore_shape (s : Scene) (pid : String) :
    evaluateScore s pid = s ∨
    ∃ w r, evaluateScore s pid = recordWin s w r := by
  unfold evaluateScore
  by_cases h : s.roundOver = true
  · left; simp [h]
  simp only [if_neg h]
  cases hfp : findPlayer s pid with
  | none => left; rfl
  | some player =>
    by_cases hm1 : s.settings.mode = GameMode.shooting
    · simp only [if_pos hm1]
      by_cases hh : player.health ≤ 0
      · simp only [if_pos hh]
        cases hop : findOpponent s pid with
        | none => left; rfl
        | some opp => right; exact ⟨_, _, rfl⟩
      · simp only [if_neg hh]
        exact Or.inl trivial
    simp only [if_neg hm1]
    by_cases hm2 : s.settings.mode = GameMode.pursuit
    · simp only [if_pos hm2]
      by_cases c1 : player.role = PlayerRole.collector ∧
          player.score ≥ s.settings.winningScore
      · simp only [if_pos c1]; right; exact ⟨_, _, rfl⟩
      simp only [if_neg c1]
      by_cases c2 : player.role = PlayerRole.chaser ∧
          player.score ≥ s.settings.chaserTagGoal
      · simp only [if_pos c2]; right; exact ⟨_, _, rfl⟩
      simp only [if_neg c2]
      by_cases c3 : player.role = PlayerRole.collector ∧
          player.score ≤ s.settings.negativeLossThreshold
      · simp only [if_pos c3]
        cases hch : s.players.find? (fun p => decide (p.role = PlayerRole.chaser)) with
        | none => left; rfl
        | some chaser => right; exact ⟨_, _, rfl⟩
      · simp only [if_neg c3]
        exact Or.inl trivial
    simp only [if_neg hm2]
    by_cases c4 : player.score ≥ s.settings.winningScore
    · simp only [if_pos c4]; right; exact ⟨_, _, rfl⟩
    simp only [if_neg c4]
    by_cases c5 : player.score ≤ s.settings.negativeLossThreshold
    · simp only [if_pos c5]
      cases hop : findOpponent s pid with
      | none => right; exact ⟨_, _, rfl⟩
      | some opp => right; exact ⟨_, _, rfl⟩
    · simp only [if_neg c5]
      exact Or.inl trivial

lemma recordWin_settings (s : Scene) (w : String) (r : WinReason) :
    (recordWin s w r).settings = s.settings := by
  unfold recordWin
  split <;> rfl

lemma evaluateScore_settings (s : Scene) (pid : String) :
    (evaluateScore s pid).settings = s.settings := by
  rcases evaluateScore_shape s pid with h | ⟨w, r, h⟩ <;> rw [h]
  exact recordWin_settings s w r

lemma evaluateScore_scoreHealth (s : Scene) (pid : String)
    (hs : scoreHealthOK s) :
    scoreHealthOK (evaluateScore s pid) := by
  rcases evaluateScore_shape s pid with h | ⟨w, r, h⟩ <;> rw [h]
  exacts [hs, recordWin_scoreHealth s w r hs]

lemma damageShields_scoreHealth (s : Scene) (pid : String) (amount : Int)
    (hmode : s.settings.mode = GameMode.shooting)
    (hs : scoreHealthOK s) :
    scoreHealthOK (damageShields s pid amount) := by
  unfold damageShields
  cases hfp : findPlayer s pid with
  | none => exact hs
  | some player =>
    have hne : ¬ s.settings.mode ≠ GameMode.shooting := by simp [hmode]
    simp only [if_neg hne]
    have hup : scoreHealthOK (updatePlayer s pid
        (fun p => { p with
          health := max 0 (player.health - amount)
          score := max 0 (player.health - amount) })) :=
      updatePlayer_scoreHealth s pid _ (fun p _ => rfl) hs
    by_cases hz : max 0 (player.health - amount) ≤ 0
    · simp only [if_pos hz]
      cases hop : findOpponent (updatePlayer s pid
          (fun p => { p with
            health := max 0 (player.health - amount)
            score := max 0 (player.health - amount) })) pid with
      | none => exact hup
      | some opp => exact recordWin_scoreHealth _ _ _ hup
    · simp only [if_neg hz]
      exact hup

lemma damageShields_settings (s : Scene) (pid : String) (amount : Int) :
    (damageShields s pid amount).settings = s.settings := by
  unfold damageShields
  cases hfp : findPlayer s pid with
  | none => rfl
  | some player =>
    by_cases hne : s.settings.mode ≠ GameMode.shooting
    · simp only [if_pos hne]
      rw [evaluateScore_settings]
      rfl
    · simp only [if_neg hne]
      by_cases hz : max 0 (player.health - amount) ≤ 0
      · simp only [if_pos hz]
        cases hop : findOpponent (updatePlayer s pid
            (fun p => { p with
              health := max 0 (player.health - amount)
              score := max 0 (player.health - amount) })) pid with
        | none => rfl
        | some opp => rw [recordWin_settings]; rfl
      · simp only [if_neg hz]; rfl

lemma hazardOverlapHandler_scoreHealth (s : Scene) (pid : String)
    (hmode : s.settings.mode = GameMode.shooting)
    (hs : scoreHealthOK s) :
    scoreHealthOK (hazardOverlapHandler s pid).scene := by
  unfold hazardOverlapHandler
  cases hfp : findPlayer s pid with
  | none => exact hs
  | some player =>
    by_cases hc : isPlayerCloaked player = true
    · simp only [if_pos hc]; exact hs
    · simp only [if_neg hc, if_pos hmode]
      exact damageShields_scoreHealth s pid _ hmode hs

lemma hazardOverlapHandler_settings (s : Scene) (pid : String) :
    (hazardOverlapHandler s pid).scene.settings = s.settings := by
  unfold hazardOverlapHandler
  cases hfp : findPlayer s pid with
  | none => rfl
  | some player =>
    by_cases hc : isPlayerCloaked player = true
    · simp only [if_pos hc]
    · simp only [if_neg hc]
      by_cases hm : s.settings.mode = GameMode.shooting
      · simp only [if_pos hm]
        exact damageShields_settings s pid _
      · simp only [if_neg hm]
        by_cases hp : s.settings.mode = GameMode.pursuit ∧
            player.role ≠ PlayerRole.collector
        · simp only [if_pos hp]
        · simp only [if_neg hp]
          rw [evaluateScore_settings]
          rfl

lemma applyUpgradeEffect_scoreHealth (p : Player) (u : UpgradeId)
    (hp : p.score = p.health) :
    (applyUpgradeEffect true p u).score = (applyUpgradeEffect true p u).health := by
  cases u <;> simp [applyUpgradeEffect, hp]

lemma applyDuelOp_settings (s : Scene) (op : DuelOp) :
    (applyDuelOp s op).settings = s.settings := by
  cases op with
  | projectileHit pid => exact damageShields_settings s pid _
  | hazardContact pid => exact hazardOverlapHandler_settings s pid
  | shieldDamage pid amount => exact damageShields_settings s pid amount
  | upgrade pid u => rfl

lemma applyDuelOp_scoreHealth (s : Scene) (op : DuelOp)
    (hmode : s.settings.mode = GameMode.shooting)
    (hs : scoreHealthOK s) :
    scoreHealthOK (applyDuelOp s op) := by
  cases op with
  | projectileHit pid => exact damageShields_scoreHealth s pid _ hmode hs
  | hazardContact pid => exact hazardOverlapHandler_scoreHealth s pid hmode hs
  | shieldDamage pid amount => exact damageShields_scoreHealth s pid amount hmode hs
  | upgrade pid u =>
    have hd : decide (s.settings.mode = GameMode.shooting) = true := by
      simp [hmode]
    exact updatePlayer_scoreHealth s pid _
      (fun p hp => by rw [hd]; exact applyUpgradeEffect_scoreHealth p u hp) hs

/-- Claim C9: in duel (shooting) mode every player's `score` equals their
`health` — creation (including queued upgrades) establishes it, and every
projectile hit, hazard contact, shield damage and upgrade application
preserves it. -/
theorem duel_score_equals_health (s : Scene) (ops : List DuelOp)
    (hmode : s.settings.mode = GameMode.shooting)
    (hs : scoreHealthOK s) :
    scoreHealthOK (runDuelOps s ops) ∧
    ∀ (cfg : PlayerConfig) (queued : List UpgradeId),
      (createPlayer true cfg queued).score = (createPlayer true cfg queued).health := by
  constructor
  · have key : ∀ (l : List DuelOp) (t : Scene),
        t.settings.mode = GameMode.shooting → scoreHealthOK t →
        scoreHealthOK (runDuelOps t l) := by
      intro l
      induction l with
      | nil => intro t _ ht; exact ht
      | cons op rest ih =>
        intro t hm ht
        have hm2 : (applyDuelOp t op).settings.mode = GameMode.shooting := by
          rw [applyDuelOp_settings]; exact hm
        exact ih _ hm2 (applyDuelOp_scoreHealth t op hm ht)
    exact key ops s hmode hs
  · intro cfg queued
    have base : ∀ (l : List UpgradeId) (q : Player), q.score = q.health →
        (l.foldl (fun a u => applyUpgradeEffect true a u) q).score =
        (l.foldl (fun a u => applyUpgradeEffect true a u) q).health := by
      intro l
      induction l with
      | nil => intro q hq; exact hq
      | cons u rest ih =>
        intro q hq
        exact ih _ (applyUpgradeEffect_scoreHealth q u hq)
    exact base queued _ rfl

def settingsShooting : GameSettings := { settingsClassic with mode := .shooting }

def duelPlayerOne : Player :=
  { playerOne with score := 5, health := 5, hookCharges := 0, maxHookCharges := 0 }

def duelPlayerTwo : Player := { duelPlayerOne with id := "p2", x := 200 }

def sceneShooting : Scene :=
  { sceneClassic with
    settings := settingsShooting
    players := [duelPlayerOne, duelPlayerTwo] }

/-- Witness for C9 on a concrete duel scene and operation sequence. -/
theorem duel_score_equals_health_witness :
    (sceneShooting.settings.mode = GameMode.shooting ∧
      scoreHealthOK sceneShooting) ∧
    scoreHealthOK (runDuelOps sceneShooting
      [DuelOp.projectileHit "p1", DuelOp.upgrade "p1" .reserveCore]) :=
  ⟨⟨rfl, by decide⟩,
    (duel_score_equals_health sceneShooting
      [DuelOp.projectileHit "p1", DuelOp.upgrade "p1" .reserveCore]
      rfl (by decide)).1⟩

end Arena
